import Mathlib

/-!
Verification of the incremental Confluence ingestion pipeline
(`src/ingest.py`, `src/vector_store.py`) against its specification.

The Python source is shallowly embedded: every external effect (HTTP client,
embedding endpoint, hashing, clock, filesystem) is passed in as pure data, and
the module-level functions of `ingest.py` become Lean functions over explicit
state.  Machine-level details that the claims do not touch (JSON wire format,
md5 internals, HTTP) are abstracted as parameters, never stubbed where a claim
depends on them.
-/

namespace ConfluenceBot

/-! ## Data model (section 3 of the spec, shapes taken from `ingest.py`) -/

/-- Raw space record as returned by `client.get_child_spaces` (the fields that
`get_all_nested_spaces` reads; the nested `description.plain.value` access is
flattened into one string). -/
structure SpaceRaw where
  key : String
  name : String
  type : String
  description : String
  status : String
deriving DecidableEq, Repr

/-- Space dictionary built by `get_all_nested_spaces` (lines 187-196 of
`ingest.py`) and for the configured root (lines 329-338). -/
structure SpaceInfo where
  key : String
  name : String
  type : String
  parentKey : Option String
  depth : Nat
  url : String
  description : String
  status : String
deriving DecidableEq, Repr

/-- Page record as returned by the client page listings (only the fields the
pipeline reads: `id` and `title`). -/
structure Page where
  id : String
  title : String
deriving DecidableEq, Repr

/-- Content unit returned by `client.get_page_with_attachments`: a page body or
one PDF attachment.  Field `ctype` models `doc.get("type", "page")`; the
attachment fields model `doc.get("attachment_id")` / `doc.get("attachment_title")`. -/
structure Doc where
  id : String
  title : String
  text : String
  url : String
  version : Nat
  ctype : Option String
  attachmentId : Option String
  attachmentTitle : Option String
deriving DecidableEq, Repr

/-- Metadata payload built at lines 451-469 of `ingest.py`. -/
structure Metadata where
  pageId : String
  pageTitle : String
  spaceKey : String
  spaceName : String
  spaceDepth : Nat
  parentSpace : Option String
  url : String
  version : Nat
  contentType : String
  lastUpdated : Nat
  attachmentId : Option String
  attachmentTitle : Option String
deriving DecidableEq, Repr

/-- Resumption cursor, the `current_progress` dictionary.  Every field is
optional because the JSON object may lack keys; the source reads them with
`.get(key)` or `.get(key, 0)`. -/
structure Cursor where
  currentSpaceIndex : Option Nat
  currentPageIndex : Option Nat
  currentBatchIndex : Option Nat
  totalSpaces : Option Nat
  totalPages : Option Nat
  totalBatches : Option Nat
  percentageComplete : Option ℚ
deriving DecidableEq, Repr

/-- Cursor with no keys set, the `{}` default of
`progress_data.get("current_progress", {})`. -/
def emptyCursor : Cursor := ⟨none, none, none, none, none, none, none⟩

/-- Entry of `processed_spaces`. -/
structure SpaceEntry where
  lastProcessed : Nat
  pageCount : Nat
deriving DecidableEq, Repr

/-- Entry of `processed_pages` (the change-detection ledger).  The
`content_hash` key may be absent, hence the `Option`. -/
structure PageEntry where
  contentHash : Option String
  lastProcessed : Nat
  metadata : Option Metadata
deriving DecidableEq, Repr

/-- The durable progress record.  Timestamps are modelled as natural numbers
(seconds); the source stores iso-format strings of `datetime.now()`. -/
structure ProgressData where
  lastRun : Option Nat
  processedSpaces : List (String × SpaceEntry)
  processedPages : List (String × PageEntry)
  totalDocuments : Nat
  lastUpdated : Option Nat
  currentProgress : Option Cursor
deriving DecidableEq, Repr

/-! ### Association lists, modelling Python dict lookup and assignment
(insertion order preserved, assignment to an existing key overwrites in place,
a new key is appended). -/

def alistLookup {κ α : Type} [BEq κ] (l : List (κ × α)) (k : κ) : Option α :=
  (l.find? (fun p => p.1 == k)).map (·.2)

def alistInsert {κ α : Type} [BEq κ] (l : List (κ × α)) (k : κ) (v : α) :
    List (κ × α) :=
  if (l.find? (fun p => p.1 == k)).isSome then
    l.map (fun p => if p.1 == k then (k, v) else p)
  else
    l ++ [(k, v)]

/-! ## Progress Store (`load_progress`, `save_progress`, lines 26-64) -/

/-- The zero-valued record returned by `load_progress` when the file is absent
or unreadable (lines 37-52). -/
def defaultCursor : Cursor :=
  ⟨some 0, some 0, some 0, some 0, some 0, some 0, some 0⟩

def defaultProgress : ProgressData :=
  ⟨none, [], [], 0, none, some defaultCursor⟩

/-- Observable states of the progress file for `load_progress`: missing,
present but raising on open or read, or present with some byte contents. -/
inductive FileState where
  | absent
  | unreadable
  | contents (s : String)
deriving DecidableEq, Repr

/-- Embedding of `load_progress` (lines 26-52).  JSON decoding is abstracted as
a `parse` parameter; `none` models a `json.load` exception, which the source
catches before falling through to the default record. -/
def loadProgress (parse : String → Option ProgressData) :
    FileState → ProgressData
  | .absent => defaultProgress
  | .unreadable => defaultProgress
  | .contents s => (parse s).getD defaultProgress

/-- Filesystem operations visible to a concurrent reader of the progress file.
`openTrunc` is `open(path, "w")` (truncates the file at once), `writeAll` is
`json.dump` writing the serialized record, `rename` is an atomic replace (never
emitted by the source, but part of the vocabulary so that its absence is a
statement about the code). -/
inductive FileOp where
  | openTrunc (path : String)
  | writeAll (path : String) (data : String)
  | rename (src dst : String)
deriving DecidableEq, Repr

def FileOp.isRename : FileOp → Bool
  | .rename _ _ => true
  | _ => false

def progressPath : String := "progress/ingestion_progress.json"

/-- Embedding of `save_progress` (lines 54-64): the record is serialized and
written directly to the final path, which is first truncated by the
`open(path, "w")`.  Serialization is abstracted as a parameter. -/
def saveProgress (serialize : ProgressData → String) (d : ProgressData) :
    List FileOp :=
  [FileOp.openTrunc progressPath, FileOp.writeAll progressPath (serialize d)]

/-- Effect of one file operation on a filesystem (path to optional contents). -/
def applyOp (fs : String → Option String) : FileOp → (String → Option String)
  | .openTrunc p => Function.update fs p (some "")
  | .writeAll p s => Function.update fs p (some ((fs p).getD "" ++ s))
  | .rename src dst =>
      fun q => if q = dst then fs src else if q = src then none else fs q

/-- Successive filesystem states a concurrent reader can observe, one after
each operation. -/
def opStates (fs : String → Option String) :
    List FileOp → List (String → Option String)
  | [] => []
  | op :: ops =>
      let fs1 := applyOp fs op
      fs1 :: opStates fs1 ops

/-! ## Content Hash Tracker (`get_content_hash`, `is_content_updated`,
lines 66-80).  The md5 hex digest is abstracted as a `hashFn : String → String`
parameter threaded through the pipeline; the source guarantee used by the
claims is only that it always returns a (non-null) string. -/

/-- Embedding of `is_content_updated` (lines 72-80): true when the unit id is
absent from the ledger, or when the stored `content_hash` (possibly the absent
key, i.e. Python `None`) differs from the freshly computed digest string. -/
def isContentUpdated (pageId : String) (contentHash : String)
    (progress : ProgressData) : Bool :=
  match alistLookup progress.processedPages pageId with
  | none => true
  | some entry => entry.contentHash != some contentHash

/-- Embedding of `update_progress` (lines 82-102); `now` stands for
`datetime.now()`. -/
def updateProgress (now : Nat) (p : ProgressData) (spaceKey pageId : String)
    (contentHash : String) (metadata : Metadata) : ProgressData :=
  let spaces0 :=
    match alistLookup p.processedSpaces spaceKey with
    | none => alistInsert p.processedSpaces spaceKey ⟨now, 0⟩
    | some _ => p.processedSpaces
  let spaces1 :=
    match alistLookup spaces0 spaceKey with
    | some e => alistInsert spaces0 spaceKey ⟨now, e.pageCount + 1⟩
    | none => spaces0
  { p with
    processedSpaces := spaces1
    processedPages :=
      alistInsert p.processedPages pageId ⟨some contentHash, now, some metadata⟩
    lastUpdated := some now
    totalDocuments := p.totalDocuments + 1 }

/-- Rounding to two decimal places, modelling Python `round(x, 2)` (the source
computes on floats; here exact rationals with integer rounding). -/
def round2 (q : ℚ) : ℚ := ((round (q * 100) : ℤ) : ℚ) / 100

/-- Embedding of `update_current_progress` (lines 104-126): always sets the six
index and total fields; recomputes `percentage_complete` only when both totals
are positive, otherwise that field keeps its previous value. -/
def updateCurrentProgress (p : ProgressData)
    (spaceIndex pageIndex batchIndex totalSpaces totalPages totalBatches : Nat) :
    ProgressData :=
  let c0 := p.currentProgress.getD emptyCursor
  let c1 : Cursor :=
    { c0 with
      currentSpaceIndex := some spaceIndex
      currentPageIndex := some pageIndex
      currentBatchIndex := some batchIndex
      totalSpaces := some totalSpaces
      totalPages := some totalPages
      totalBatches := some totalBatches }
  let c2 : Cursor :=
    if 0 < totalSpaces ∧ 0 < totalPages then
      { c1 with
        percentageComplete :=
          some (round2 ((((spaceIndex : ℚ) / (totalSpaces : ℚ) +
            (pageIndex : ℚ) / (totalPages : ℚ)) / 2) * 100)) }
    else c1
  { p with currentProgress := some c2 }

/-- Embedding of `get_resume_point` (lines 155-172).  Python reads
`current_progress.get("current_space_index")` and starts from scratch when the
value is falsy, i.e. when the key is absent or its value is 0; otherwise the
three saved indices are returned verbatim (each defaulting to 0). -/
def getResumePoint (p : ProgressData) (allSpacesToProcess : List SpaceInfo) :
    Nat × Nat × Nat :=
  let c := p.currentProgress.getD emptyCursor
  let _ := allSpacesToProcess
  if c.currentSpaceIndex.getD 0 = 0 then (0, 0, 0)
  else (c.currentSpaceIndex.getD 0, c.currentPageIndex.getD 0,
    c.currentBatchIndex.getD 0)

/-! ## Space Discoverer (`get_all_nested_spaces`, lines 174-206) -/

/-- Space dictionary built for one discovered child (lines 187-196). -/
def mkSpaceInfo (baseUrl : String) (child : SpaceRaw) (parentSpaceKey : String)
    (depth : Nat) : SpaceInfo :=
  { key := child.key
    name := child.name
    type := child.type
    parentKey := some parentSpaceKey
    depth := depth
    url := baseUrl ++ "/display/" ++ child.key
    description := child.description
    status := child.status }

/-- Recursion core of `get_all_nested_spaces`.  The source recurses on
`current_depth + 1` under the guard `current_depth >= max_depth`; here the
same recursion is driven by the explicit fuel `max_depth - current_depth`, so
the function is structural and computable.  `getAllNestedSpaces_unfold` below
certifies that this is exactly the guarded recursion of the source. -/
def getAllNestedSpacesAux (getChildSpaces : String → List SpaceRaw)
    (baseUrl : String) : Nat → String → Nat → List SpaceInfo
  | 0, _, _ => []
  | fuel + 1, parentSpaceKey, currentDepth =>
      (getChildSpaces parentSpaceKey).flatMap (fun child =>
        mkSpaceInfo baseUrl child parentSpaceKey (currentDepth + 1) ::
          getAllNestedSpacesAux getChildSpaces baseUrl fuel child.key
            (currentDepth + 1))

/-- Embedding of `get_all_nested_spaces(client, parent_space_key, max_depth,
current_depth)`.  The client lookup `client.get_child_spaces` is the pure
`getChildSpaces` parameter (a lookup failure, caught by the source and turned
into `[]`, is modelled by that parameter returning `[]`). -/
def getAllNestedSpaces (getChildSpaces : String → List SpaceRaw)
    (baseUrl : String) (parentSpaceKey : String) (maxDepth currentDepth : Nat) :
    List SpaceInfo :=
  getAllNestedSpacesAux getChildSpaces baseUrl (maxDepth - currentDepth)
    parentSpaceKey currentDepth

/-- The defining equation of the source (lines 178-203): return `[]` once
`current_depth >= max_depth`, otherwise emit each child followed by its own
recursive expansion at depth `current_depth + 1`. -/
theorem getAllNestedSpaces_unfold (getChildSpaces : String → List SpaceRaw)
    (baseUrl parentSpaceKey : String) (maxDepth currentDepth : Nat) :
    getAllNestedSpaces getChildSpaces baseUrl parentSpaceKey maxDepth
        currentDepth =
      if maxDepth ≤ currentDepth then []
      else
        (getChildSpaces parentSpaceKey).flatMap (fun child =>
          mkSpaceInfo baseUrl child parentSpaceKey (currentDepth + 1) ::
            getAllNestedSpaces getChildSpaces baseUrl child.key maxDepth
              (currentDepth + 1)) := by
  unfold getAllNestedSpaces
  rcases h : maxDepth - currentDepth with _ | fuel
  · have : maxDepth ≤ currentDepth := by omega
    simp [this, getAllNestedSpacesAux]
  · have h1 : ¬ maxDepth ≤ currentDepth := by omega
    have h2 : maxDepth - (currentDepth + 1) = fuel := by omega
    simp only [getAllNestedSpacesAux, h1, if_false, h2]

/-- Keys reachable from `root` along the child-space relation in at most `n`
hops (with repetitions; membership is the notion of reachability used below). -/
def withinHops (getChildSpaces : String → List SpaceRaw) (root : String) :
    Nat → List String
  | 0 => [root]
  | n + 1 =>
      root :: (getChildSpaces root).flatMap (fun c =>
        withinHops getChildSpaces c.key n)

/-! ## Page Discoverer (`get_all_pages_recursive`, lines 240-275) -/

/-- Recursion core of the inner `get_children_recursive` (lines 252-270),
driven by the fuel `4 - level` (the source guard is `level > 3`);
`getChildrenRecursive_unfold` certifies the equivalence.  For each parent the
direct children are appended and then expanded in place (depth-first), exactly
as the source extends `all_pages` inside the loop before recursing. -/
def getChildrenRecursiveAux (getChildPages : String → List Page) :
    Nat → List Page → List Page
  | 0, _ => []
  | fuel + 1, parentPages =>
      parentPages.flatMap (fun parentPage =>
        let childPages := getChildPages parentPage.id
        childPages ++ getChildrenRecursiveAux getChildPages fuel childPages)

def getChildrenRecursive (getChildPages : String → List Page)
    (parentPages : List Page) (level : Nat) : List Page :=
  getChildrenRecursiveAux getChildPages (4 - level) parentPages

/-- The defining equation of the source loop: stop beyond level 3, otherwise
accumulate children and recurse one level deeper. -/
theorem getChildrenRecursive_unfold (getChildPages : String → List Page)
    (parentPages : List Page) (level : Nat) :
    getChildrenRecursive getChildPages parentPages level =
      if 3 < level then []
      else
        parentPages.flatMap (fun parentPage =>
          let childPages := getChildPages parentPage.id
          childPages ++
            getChildrenRecursive getChildPages childPages (level + 1)) := by
  unfold getChildrenRecursive
  rcases h : 4 - level with _ | fuel
  · have : 3 < level := by omega
    simp [this, getChildrenRecursiveAux]
  · have h1 : ¬ 3 < level := by omega
    have h2 : 4 - (level + 1) = fuel := by omega
    simp only [getChildrenRecursiveAux, h1, if_false, h2]

/-- Embedding of `get_all_pages_recursive`: top-level pages first, then the
recursive child expansion starting at level 1. -/
def getAllPagesRecursive (getAllPages getChildPages : String → List Page)
    (spaceKey : String) : List Page :=
  let topLevelPages := getAllPages spaceKey
  topLevelPages ++ getChildrenRecursive getChildPages topLevelPages 1

/-! ## Vector index (`vector_store.py`) -/

/-- Document staged for upsert (lines 472-476 of `ingest.py`). -/
structure StagedDoc where
  text : String
  vector : List Int
  metadata : Metadata
deriving DecidableEq, Repr

/-- Point submitted to the index (`PointStruct`), payload is text plus
metadata. -/
structure Point where
  id : Nat
  vector : List Int
  payloadText : String
  payloadMeta : Metadata
deriving DecidableEq, Repr

/-- Embedding of the point construction in `upsert_embeddings`
(`vector_store.py` lines 89-100): `id = i` for `i, doc in enumerate(docs)`. -/
def upsertEmbeddings (docs : List StagedDoc) : List Point :=
  docs.enum.map (fun p => ⟨p.1, p.2.vector, p.2.text, p.2.metadata⟩)

/-- State of the vector index: points keyed by id; a Qdrant upsert inserts or
overwrites by id. -/
def indexUpsert (index : List (Nat × Point)) (points : List Point) :
    List (Nat × Point) :=
  points.foldl (fun idx pt => alistInsert idx pt.id pt) index

/-- Count of points in the index (the `points_count` statistic). -/
def pointsCount (index : List (Nat × Point)) : Nat := index.length

/-- One call of `upsert_embeddings` followed by the upsert into the index; on
an empty batch the source returns before contacting the index. -/
def upsertBatch (index : List (Nat × Point)) (docs : List StagedDoc) :
    List (Nat × Point) :=
  if docs.isEmpty then index else indexUpsert index (upsertEmbeddings docs)

/-! ## Batch Ingestor (`ingest_from_config`, lines 277-546)

The external collaborators (HTTP content client, embedding endpoint, digest,
clock) are gathered into a pure environment.  `embed` returns the embedding
list, with `[]` modelling every falsy failure result of `get_embedding`. -/

structure Env where
  baseUrl : String
  getChildSpaces : String → List SpaceRaw
  getAllPages : String → List Page
  getChildPages : String → List Page
  pageDocs : Page → List Doc
  embed : String → List Int
  hashFn : String → String
  now : Nat

/-- One entry of `config/spaces.json`; the optional fields are read with
defaults at lines 329-338. -/
structure ConfigSpace where
  key : String
  name : String
  type : Option String
  url : Option String
  description : Option String
  status : Option String
deriving DecidableEq, Repr

/-- The keyword arguments of `ingest_from_config`. -/
structure Flags where
  incremental : Bool
  daily : Bool
  force : Bool
  resume : Bool
deriving DecidableEq, Repr

/-- Per-space summary appended to `processed_spaces` (lines 401-406). -/
structure SpaceSummary where
  name : String
  key : String
  depth : Nat
  pageCount : Nat
deriving DecidableEq, Repr

/-- State threaded through one ingestion run.  The first group mirrors the
local variables of `ingest_from_config`; the fields from `embedCalls` on are
ghost observations recording the calls made to the collaborators
(`get_embedding`, `upsert_embeddings`, `save_progress`) and which
`(space position, page index)` pairs the page loop visits — they add no
behaviour, only visibility. -/
structure RunState where
  progress : ProgressData
  totalProcessed : Nat
  totalUpdated : Nat
  totalSkipped : Nat
  startPageIndex : Nat
  processedSpaces : List SpaceSummary
  embedCalls : List String
  upsertCalls : List (List StagedDoc)
  saveCalls : List ProgressData
  pagesVisited : List (Nat × Nat)
  unitsEmbedded : List String
  unitsSkipped : List String
deriving DecidableEq, Repr

def initState (p : ProgressData) : RunState :=
  ⟨p, 0, 0, 0, 0, [], [], [], [], [], [], []⟩

/-- Outcome of a run: early refusals (lines 287, 303, 308) or normal
completion returning the processed-space summary. -/
inductive RunOutcome where
  | noConfig
  | refusedDaily
  | refusedFull
  | completed (summary : List SpaceSummary)
deriving DecidableEq, Repr

structure RunResult where
  outcome : RunOutcome
  state : RunState
deriving DecidableEq, Repr

/-- Python `range(start, stop, step)` for a positive step. -/
def rangeStep (start stop step : Nat) : List Nat :=
  (List.range ((stop - start + step - 1) / step)).map (fun k => start + step * k)

/-- Space dictionary for a configured root space (lines 329-338). -/
def mkMainSpace (env : Env) (cs : ConfigSpace) : SpaceInfo :=
  { key := cs.key
    name := cs.name
    type := cs.type.getD "global"
    parentKey := none
    depth := 0
    url := cs.url.getD (env.baseUrl ++ "/display/" ++ cs.key)
    description := cs.description.getD ""
    status := cs.status.getD "current" }

/-- Work list built at lines 322-352: each configured root followed by its
nested spaces from `get_all_nested_spaces(client, space_key, max_depth=3)`. -/
def buildAllSpaces (env : Env) (configSpaces : List ConfigSpace) :
    List SpaceInfo :=
  configSpaces.flatMap (fun cs =>
    mkMainSpace env cs ::
      getAllNestedSpaces env.getChildSpaces env.baseUrl cs.key 3 0)

/-- Metadata built for a staged document (lines 451-469), including the
PDF-specific fields added when the unit type is `pdf_attachment`. -/
def mkMetadata (env : Env) (space : SpaceInfo) (doc : Doc) : Metadata :=
  { pageId := doc.id
    pageTitle := doc.title
    spaceKey := space.key
    spaceName := space.name
    spaceDepth := space.depth
    parentSpace := space.parentKey
    url := doc.url
    version := doc.version
    contentType := doc.ctype.getD "page"
    lastUpdated := env.now
    attachmentId :=
      if doc.ctype.getD "page" = "pdf_attachment" then doc.attachmentId
      else none
    attachmentTitle :=
      if doc.ctype.getD "page" = "pdf_attachment" then doc.attachmentTitle
      else none }

/-- Processing of one content unit (lines 435-489): change detection gated on
the `incremental` flag alone, then the embedding request; a successful
embedding stages the document and applies the ledger update in memory. -/
def processDoc (env : Env) (incremental : Bool) (space : SpaceInfo)
    (pageId : String) (st : RunState × List StagedDoc) (doc : Doc) :
    RunState × List StagedDoc :=
  let s := st.1
  let staged := st.2
  let docId := pageId ++ "_" ++ doc.ctype.getD "page"
  let contentHash := env.hashFn doc.text
  if incremental && !(isContentUpdated docId contentHash s.progress) then
    ({ s with
        totalSkipped := s.totalSkipped + 1
        unitsSkipped := s.unitsSkipped ++ [docId] }, staged)
  else
    let vector := env.embed doc.text
    let s1 := { s with embedCalls := s.embedCalls ++ [doc.text] }
    if vector.isEmpty then (s1, staged)
    else
      let metadata := mkMetadata env space doc
      ({ s1 with
          progress :=
            updateProgress env.now s1.progress space.key docId contentHash
              metadata
          totalProcessed := s1.totalProcessed + 1
          totalUpdated :=
            if incremental then s1.totalUpdated + 1 else s1.totalUpdated
          unitsEmbedded := s1.unitsEmbedded ++ [docId] },
        staged ++ [⟨"Space: " ++ space.name ++ "\nTitle: " ++ doc.title ++
          "\n\n" ++ doc.text, vector, metadata⟩])

/-- Processing of one page inside a page batch (lines 420-492): the cursor is
updated first — note the source passes the space-batch start index `i` as the
space coordinate — then every content unit of the page is processed. -/
def processPage (env : Env) (incremental : Bool) (space : SpaceInfo)
    (spaceBatchStart absSpaceIndex batchNum totalSpacesCount totalPagesCount
      totalBatches j : Nat) (st : RunState × List StagedDoc) (pageIdx : Nat)
    (page : Page) : RunState × List StagedDoc :=
  let currentPageIndex := j + pageIdx
  let s := { st.1 with
    progress :=
      updateCurrentProgress st.1.progress spaceBatchStart currentPageIndex
        batchNum totalSpacesCount totalPagesCount totalBatches
    pagesVisited := st.1.pagesVisited ++ [(absSpaceIndex, currentPageIndex)] }
  (env.pageDocs page).foldl (processDoc env incremental space page.id)
    (s, st.2)

/-- Processing of one page batch starting at offset `j` (lines 410-511):
stage the batch, then, if anything was staged, submit one upsert and persist
the progress record. -/
def processPageBatch (env : Env) (incremental : Bool) (space : SpaceInfo)
    (pages : List Page)
    (spaceBatchStart absSpaceIndex totalSpacesCount totalPagesCount
      totalBatches : Nat) (s : RunState) (j : Nat) : RunState :=
  let pageBatch := (pages.drop j).take 5
  let batchNum := j / 5 + 1
  let res := pageBatch.enum.foldl
    (fun st q =>
      processPage env incremental space spaceBatchStart absSpaceIndex batchNum
        totalSpacesCount totalPagesCount totalBatches j st q.1 q.2)
    (s, [])
  if res.2.isEmpty then res.1
  else
    { res.1 with
      upsertCalls := res.1.upsertCalls ++ [res.2]
      saveCalls := res.1.saveCalls ++ [res.1.progress] }

/-- Processing of one space (lines 386-514).  The page loop of the very first
space of the very first space batch starts at the saved `start_page_index`;
every other space starts at 0.  When a space has no pages the source
`continue`s, skipping both the summary append and the final
`start_page_index = 0` reset. -/
def processSpace (env : Env) (incremental : Bool)
    (startSpaceIndex totalSpacesCount totalPagesCount totalBatches
      spaceBatchStart : Nat) (s : RunState) (spaceIdx : Nat)
    (space : SpaceInfo) : RunState :=
  let pages := getAllPagesRecursive env.getAllPages env.getChildPages space.key
  if pages.isEmpty then s
  else
    let s1 := { s with
      processedSpaces := s.processedSpaces ++
        [⟨space.name, space.key, space.depth, pages.length⟩] }
    let startJ :=
      if spaceIdx = 0 ∧ spaceBatchStart = startSpaceIndex then
        s1.startPageIndex
      else 0
    let s2 := (rangeStep startJ pages.length 5).foldl
      (processPageBatch env incremental space pages spaceBatchStart
        (spaceBatchStart + spaceIdx) totalSpacesCount totalPagesCount
        totalBatches) s1
    { s2 with startPageIndex := 0 }

/-- The space loop (lines 379-518): iterate the work list from the resume
index in space batches of two, processing every space of every batch. -/
def runSpaceLoop (env : Env) (inc : Bool) (allSpaces : List SpaceInfo)
    (startSpaceIndex totalPagesCount totalBatches : Nat) (s0 : RunState) :
    RunState :=
  (rangeStep startSpaceIndex allSpaces.length 2).foldl
    (fun s i =>
      ((allSpaces.drop i).take 2).enum.foldl
        (fun s q =>
          processSpace env inc startSpaceIndex allSpaces.length
            totalPagesCount totalBatches i s q.1 q.2) s)
    s0

/-- Starting state of the loop: the loaded progress record and the saved page
index from the resume point. -/
def mkInitState (p : ProgressData) (startPageIndex : Nat) : RunState :=
  { initState p with startPageIndex := startPageIndex }

/-- Main body of a run that passed the mode gate (lines 310-541): build the
work list, take the resume point (whose third component, the saved batch
index, is bound but never used by any loop), pre-compute the page total, run
the space loop in batches of two, then stamp `last_run` and persist once
more. -/
def runMain (env : Env) (configSpaces : List ConfigSpace) (flags : Flags)
    (p : ProgressData) : RunResult :=
  let allSpaces := buildAllSpaces env configSpaces
  let resumePoint :=
    if flags.resume then getResumePoint p allSpaces else (0, 0, 0)
  let totalPagesCount :=
    (allSpaces.map (fun sp =>
      (getAllPagesRecursive env.getAllPages env.getChildPages sp.key).length)).sum
  let totalBatches := (allSpaces.length + 2 - 1) / 2
  let s1 := runSpaceLoop env flags.incremental allSpaces resumePoint.1
    totalPagesCount totalBatches (mkInitState p resumePoint.2.1)
  let pFinal := { s1.progress with lastRun := some env.now }
  ⟨RunOutcome.completed s1.processedSpaces,
    { s1 with progress := pFinal, saveCalls := s1.saveCalls ++ [pFinal] }⟩

/-- Embedding of `ingest_from_config` (lines 277-546): empty configuration and
the mode gate first — the daily cooldown return at line 303 fires whenever
`last_run` is set, `daily` holds and less than 24 hours have passed, with no
consultation of `force`; `force` is consulted only on the full-mode branch —
then the main body. -/
def ingestFromConfig (env : Env) (configSpaces : List ConfigSpace)
    (flags : Flags) (p : ProgressData) : RunResult :=
  if configSpaces.isEmpty then ⟨RunOutcome.noConfig, initState p⟩
  else if flags.incremental || flags.daily then
    match p.lastRun with
    | some t =>
        if flags.daily = true ∧ (env.now : Int) - (t : Int) < 86400 then
          ⟨RunOutcome.refusedDaily, initState p⟩
        else runMain env configSpaces flags p
    | none => runMain env configSpaces flags p
  else if !flags.force then ⟨RunOutcome.refusedFull, initState p⟩
  else runMain env configSpaces flags p

/-! ## Claim C6 — totality of the progress loader -/

/-- C6: progress load is total.  In every failure state of the progress file
(absent, unreadable, or present but unparseable) the loader returns normally
with the zero-valued record: null last run, empty processed maps, zero
document count, and a cursor whose indices, totals and completion percentage
are all zero. -/
theorem C6_load_progress_total_on_failure
    (parse : String → Option ProgressData) (fs : FileState)
    (h : ∀ s, fs = FileState.contents s → parse s = none) :
    loadProgress parse fs = defaultProgress ∧
    defaultProgress.lastRun = none ∧
    defaultProgress.processedSpaces = [] ∧
    defaultProgress.processedPages = [] ∧
    defaultProgress.totalDocuments = 0 ∧
    defaultProgress.currentProgress =
      some ⟨some 0, some 0, some 0, some 0, some 0, some 0, some 0⟩ := by
  refine ⟨?_, rfl, rfl, rfl, rfl, rfl⟩
  cases fs with
  | absent => rfl
  | unreadable => rfl
  | contents s => simp [loadProgress, h s rfl]

/-- Witness for C6 at the concrete failure state of an absent file. -/
theorem C6_witness :
    loadProgress (fun _ => none) FileState.absent = defaultProgress ∧
    defaultProgress.lastRun = none ∧
    defaultProgress.processedSpaces = [] ∧
    defaultProgress.processedPages = [] ∧
    defaultProgress.totalDocuments = 0 ∧
    defaultProgress.currentProgress =
      some ⟨some 0, some 0, some 0, some 0, some 0, some 0, some 0⟩ :=
  C6_load_progress_total_on_failure (fun _ => none) FileState.absent
    (fun _ hs => nomatch hs)

/-! ## Claim C8 — division guard of the cursor update -/

/-- C8: every cursor update sets the six index and total fields; when either
total is zero the completion percentage keeps its previous value (no division
happens), and only when both totals are positive is it recomputed as the
two-decimal rounding of the averaged ratios times 100. -/
theorem C8_update_cursor_division_guard (p : ProgressData)
    (si pi bi ts tp tb : Nat) :
    ((updateCurrentProgress p si pi bi ts tp tb).currentProgress.getD
        emptyCursor).currentSpaceIndex = some si ∧
    ((updateCurrentProgress p si pi bi ts tp tb).currentProgress.getD
        emptyCursor).currentPageIndex = some pi ∧
    ((updateCurrentProgress p si pi bi ts tp tb).currentProgress.getD
        emptyCursor).currentBatchIndex = some bi ∧
    ((updateCurrentProgress p si pi bi ts tp tb).currentProgress.getD
        emptyCursor).totalSpaces = some ts ∧
    ((updateCurrentProgress p si pi bi ts tp tb).currentProgress.getD
        emptyCursor).totalPages = some tp ∧
    ((updateCurrentProgress p si pi bi ts tp tb).currentProgress.getD
        emptyCursor).totalBatches = some tb ∧
    ((ts = 0 ∨ tp = 0) →
      ((updateCurrentProgress p si pi bi ts tp tb).currentProgress.getD
          emptyCursor).percentageComplete =
        (p.currentProgress.getD emptyCursor).percentageComplete) ∧
    (0 < ts → 0 < tp →
      ((updateCurrentProgress p si pi bi ts tp tb).currentProgress.getD
          emptyCursor).percentageComplete =
        some (round2 ((((si : ℚ) / (ts : ℚ) + (pi : ℚ) / (tp : ℚ)) / 2) *
          100))) := by
  by_cases h : 0 < ts ∧ 0 < tp
  · refine ⟨by simp [updateCurrentProgress, h], by simp [updateCurrentProgress, h],
      by simp [updateCurrentProgress, h], by simp [updateCurrentProgress, h],
      by simp [updateCurrentProgress, h], by simp [updateCurrentProgress, h],
      fun hz => by exfalso; rcases hz with hz | hz <;> omega,
      fun _ _ => by simp [updateCurrentProgress, h]⟩
  · refine ⟨by simp [updateCurrentProgress, h], by simp [updateCurrentProgress, h],
      by simp [updateCurrentProgress, h], by simp [updateCurrentProgress, h],
      by simp [updateCurrentProgress, h], by simp [updateCurrentProgress, h],
      fun _ => by simp [updateCurrentProgress, h],
      fun h1 h2 => absurd ⟨h1, h2⟩ h⟩

/-- Witness for C8 with a zero page total: the six fields are set and the
percentage is untouched. -/
theorem C8_witness :
    ((updateCurrentProgress defaultProgress 1 2 3 4 0 5).currentProgress.getD
        emptyCursor).currentSpaceIndex = some 1 ∧
    ((updateCurrentProgress defaultProgress 1 2 3 4 0 5).currentProgress.getD
        emptyCursor).totalPages = some 0 ∧
    ((updateCurrentProgress defaultProgress 1 2 3 4 0 5).currentProgress.getD
        emptyCursor).percentageComplete =
      (defaultProgress.currentProgress.getD emptyCursor).percentageComplete :=
  ⟨(C8_update_cursor_division_guard defaultProgress 1 2 3 4 0 5).1,
   (C8_update_cursor_division_guard defaultProgress 1 2 3 4 0 5).2.2.2.2.1,
   (C8_update_cursor_division_guard defaultProgress 1 2 3 4 0
      5).2.2.2.2.2.2.1 (Or.inr rfl)⟩

/-! ## Claim C9 — ledger entries without a content hash count as changed -/

/-- C9: when the ledger holds an entry for a unit id but that entry has no
`content_hash` key, change detection reports the unit as updated for every
computed digest, and unit processing in incremental mode therefore requests a
fresh embedding for it instead of skipping it. -/
theorem C9_missing_hash_counts_as_changed (p : ProgressData)
    (uid dig : String) (e : PageEntry)
    (hl : alistLookup p.processedPages uid = some e)
    (hh : e.contentHash = none) :
    isContentUpdated uid dig p = true ∧
    (∀ (env : Env) (space : SpaceInfo) (pageId : String)
        (st : RunState × List StagedDoc) (doc : Doc),
      st.1.progress = p →
      pageId ++ "_" ++ doc.ctype.getD "page" = uid →
      (processDoc env true space pageId st doc).1.totalSkipped =
          st.1.totalSkipped ∧
      (processDoc env true space pageId st doc).1.embedCalls =
          st.1.embedCalls ++ [doc.text]) := by
  have hbase : ∀ d : String, isContentUpdated uid d p = true := by
    intro d
    simp [isContentUpdated, hl, hh]
  refine ⟨hbase dig, ?_⟩
  intro env space pageId st doc hst hid
  simp only [processDoc]
  rw [hst, hid, hbase (env.hashFn doc.text)]
  by_cases hv : (env.embed doc.text).isEmpty <;> simp [hv]

/-- Witness for C9: a concrete ledger entry lacking the hash key. -/
theorem C9_witness :
    isContentUpdated "p1_page" "digest9"
      { defaultProgress with
        processedPages := [("p1_page", ⟨none, 7, none⟩)] } = true :=
  (C9_missing_hash_counts_as_changed
    { defaultProgress with processedPages := [("p1_page", ⟨none, 7, none⟩)] }
    "p1_page" "digest9" ⟨none, 7, none⟩ rfl rfl).1

/-! ## Claim C2 — point id assignment in `upsert_embeddings` -/

/-- Concrete metadata for test fixtures. -/
def mdTest : Metadata :=
  ⟨"p1", "T", "S", "SN", 0, none, "u", 1, "page", 0, none, none⟩

def sdocOne : StagedDoc := ⟨"text one", [1], mdTest⟩

def sdocTwo : StagedDoc := ⟨"text two", [2], mdTest⟩

/-- C2 counterexample: point ids do not continue from the current point count
of the index.  After a first one-document batch the index holds 1 point, yet
the sole point of a second batch is again assigned id 0 — not 1 = count +
position — so the two distinct batches share id 0 and the second upsert
overwrites the first (the index still holds a single point afterwards). -/
theorem C2_counterexample :
    (upsertEmbeddings [sdocOne]).map Point.id = [0] ∧
    pointsCount (upsertBatch [] [sdocOne]) = 1 ∧
    (upsertEmbeddings [sdocTwo]).map Point.id = [0] ∧
    pointsCount (upsertBatch (upsertBatch [] [sdocOne]) [sdocTwo]) = 1 := by
  refine ⟨rfl, rfl, rfl, rfl⟩

/-- C2 amended: the id of every point equals the position of its document
within the submitted batch (`id = i` from `enumerate`), independent of the
current size of the index; hence every batch uses ids 0, 1, ... again. -/
theorem C2_upsert_ids_are_batch_positions (docs : List StagedDoc) :
    (upsertEmbeddings docs).map Point.id = List.range docs.length := by
  unfold upsertEmbeddings
  rw [List.map_map]
  have h : (Point.id ∘ fun p : Nat × StagedDoc =>
      (⟨p.1, p.2.vector, p.2.text, p.2.metadata⟩ : Point)) = Prod.fst := rfl
  rw [h, List.enum_map_fst]

/-! ## Claim C5 — the progress save is not atomic -/

/-- Concrete serializer and pre-existing filesystem for the C5 fixture. -/
def serFixture : ProgressData → String := fun _ => "NEWRECORD"

def fsFixture : String → Option String :=
  fun q => if q = progressPath then some "OLDRECORD" else none

/-- C5 counterexample: `save_progress` performs no rename at all, and after
its first operation (the truncating `open(path, "w")`) the final path holds
the empty string — neither the old record nor the new one — so a concurrent
reader can observe a half-written (here 0-byte) file. -/
theorem C5_counterexample :
    ((saveProgress serFixture defaultProgress).all fun op => !op.isRename) =
        true ∧
    ((opStates fsFixture (saveProgress serFixture defaultProgress)).head?.map
        (fun g => g progressPath)) = some (some "") ∧
    ("" : String) ≠ serFixture defaultProgress ∧
    some ("" : String) ≠ fsFixture progressPath := by
  refine ⟨rfl, ?_, by simp [serFixture], by simp [fsFixture]⟩
  simp [opStates, saveProgress, applyOp, Function.update]

/-- C5 amended: every save truncates the target file in place and then writes
the serialized record directly to it; no temporary file and no rename are
involved, and the intermediate states a concurrent reader can observe at the
final path are exactly the empty (truncated) file followed by the complete
record. -/
theorem C5_save_truncates_in_place (serialize : ProgressData → String)
    (d : ProgressData) (fs : String → Option String) :
    saveProgress serialize d =
      [FileOp.openTrunc progressPath,
        FileOp.writeAll progressPath (serialize d)] ∧
    ((opStates fs (saveProgress serialize d)).map (fun g => g progressPath)) =
      [some "", some (serialize d)] := by
  refine ⟨rfl, ?_⟩
  simp [opStates, saveProgress, applyOp, Function.update]

/-! ## Claim C7 — depth-bounded discovery -/

theorem self_mem_withinHops (f : String → List SpaceRaw) (root : String)
    (n : Nat) : root ∈ withinHops f root n := by
  cases n <;> simp [withinHops]

/-- Every space emitted by the discovery core has depth between
`currentDepth + 1` and `currentDepth + fuel`, and its key is reachable from
the start key within `fuel` hops of the child relation. -/
theorem getAllNestedSpacesAux_spec (f : String → List SpaceRaw) (b : String) :
    ∀ (fuel : Nat) (parent : String) (cd : Nat) (s : SpaceInfo),
      s ∈ getAllNestedSpacesAux f b fuel parent cd →
      cd + 1 ≤ s.depth ∧ s.depth ≤ cd + fuel ∧
        s.key ∈ withinHops f parent fuel := by
  intro fuel
  induction fuel with
  | zero => intro parent cd s hs; simp [getAllNestedSpacesAux] at hs
  | succ fuel ih =>
    intro parent cd s hs
    simp only [getAllNestedSpacesAux, List.mem_flatMap, List.mem_cons] at hs
    obtain ⟨child, hchild, hcase⟩ := hs
    rcases hcase with hEq | hrec
    · subst hEq
      refine ⟨by simp [mkSpaceInfo], by simp [mkSpaceInfo], ?_⟩
      simp only [withinHops, List.mem_cons, List.mem_flatMap]
      exact Or.inr ⟨child, hchild, self_mem_withinHops f child.key fuel⟩
    · obtain ⟨h1, h2, h3⟩ := ih child.key (cd + 1) s hrec
      refine ⟨by omega, by omega, ?_⟩
      simp only [withinHops, List.mem_cons, List.mem_flatMap]
      exact Or.inr ⟨child, hchild, h3⟩

/-- A two-element cycle in the child-space relation. -/
def rawA : SpaceRaw := ⟨"A", "Space A", "global", "", "current"⟩

def rawB : SpaceRaw := ⟨"B", "Space B", "global", "", "current"⟩

def cycChildren : String → List SpaceRaw :=
  fun k => if k = "A" then [rawB] else if k = "B" then [rawA] else []

/-- C7 counterexample: on the cyclic relation A → B → A, discovery from A with
`max_depth = 3` terminates but returns three entries (B at depth 1, A at depth
2, B again at depth 3), which exceeds the two nodes reachable within three
hops — the claimed size bound fails on cyclic input. -/
theorem C7_counterexample :
    (getAllNestedSpaces cycChildren "" "A" 3 0).length = 3 ∧
    ((withinHops cycChildren "A" 3).dedup).length = 2 ∧
    ¬ (getAllNestedSpaces cycChildren "" "A" 3 0).length ≤
        ((withinHops cycChildren "A" 3).dedup).length := by
  refine ⟨rfl, by decide, by decide⟩

/-- C7 amended: discovery terminates on every child-space relation, returns
the empty list whenever `current_depth >= max_depth`, only emits spaces with
depth between 1 and `max_depth` whose keys are reachable from the root within
`max_depth` hops (with cycles the same node may however be emitted several
times, so the result size can exceed the count of distinct reachable nodes),
and the recursive child expansion of page discovery stops beyond level 3. -/
theorem C7_depth_bounded_discovery :
    (∀ (f : String → List SpaceRaw) (b parent : String)
        (maxDepth currentDepth : Nat),
      maxDepth ≤ currentDepth →
      getAllNestedSpaces f b parent maxDepth currentDepth = []) ∧
    (∀ (f : String → List SpaceRaw) (b root : String) (s : SpaceInfo),
      s ∈ getAllNestedSpaces f b root 3 0 →
      1 ≤ s.depth ∧ s.depth ≤ 3 ∧ s.key ∈ withinHops f root 3) ∧
    (∀ (g : String → List Page) (parents : List Page) (level : Nat),
      3 < level → getChildrenRecursive g parents level = []) := by
  refine ⟨?_, ?_, ?_⟩
  · intro f b parent md cd h
    unfold getAllNestedSpaces
    have hz : md - cd = 0 := by omega
    rw [hz]
    rfl
  · intro f b root s hs
    exact getAllNestedSpacesAux_spec f b 3 root 0 s hs
  · intro g parents level h
    unfold getChildrenRecursive
    have hz : 4 - level = 0 := by omega
    rw [hz]
    rfl

/-- Witness for C7 at the cyclic fixture. -/
theorem C7_witness :
    getAllNestedSpaces cycChildren "" "A" 3 3 = [] ∧
    (1 ≤ (mkSpaceInfo "" rawB "A" 1).depth ∧
      (mkSpaceInfo "" rawB "A" 1).depth ≤ 3 ∧
      (mkSpaceInfo "" rawB "A" 1).key ∈ withinHops cycChildren "A" 3) ∧
    getChildrenRecursive (fun _ => []) [⟨"p", "t"⟩] 4 = [] :=
  ⟨C7_depth_bounded_discovery.1 cycChildren "" "A" 3 3 (le_refl 3),
   C7_depth_bounded_discovery.2.1 cycChildren "" "A"
     (mkSpaceInfo "" rawB "A" 1) (by decide),
   C7_depth_bounded_discovery.2.2 (fun _ => []) [⟨"p", "t"⟩] 4 (by omega)⟩

/-! ## Concrete run fixtures (one configured space, no nesting, every
embedding succeeds, digest is text prefixed with a hash mark) -/

def pageOne : Page := ⟨"p1", "Page One"⟩

def envT : Env :=
  { baseUrl := "https://w"
    getChildSpaces := fun _ => []
    getAllPages := fun k => if k = "S" then [pageOne] else []
    getChildPages := fun _ => []
    pageDocs := fun pg =>
      [⟨pg.id, pg.title, "body " ++ pg.id, "u", 1, none, none, none⟩]
    embed := fun _ => [1]
    hashFn := fun t => "#" ++ t
    now := 1000000 }

def cfgT : List ConfigSpace := [⟨"S", "Space S", none, none, none, none⟩]

/-! ## Claim C4 — the daily cooldown ignores the force flag -/

def pRecent : ProgressData := { defaultProgress with lastRun := some 999000 }

def pOld : ProgressData := { defaultProgress with lastRun := some 100 }

/-- C4 counterexample: with `force = true` and a last run 1000 seconds in the
past, a daily-mode invocation is still refused (no embedding, no upsert,
ledger untouched), although the very same forced call embeds the corpus when
the last run is older than 24 hours — the force flag does not override the
cooldown. -/
theorem C4_counterexample :
    (ingestFromConfig envT cfgT ⟨false, true, true, true⟩ pRecent).outcome =
        RunOutcome.refusedDaily ∧
    (ingestFromConfig envT cfgT
        ⟨false, true, true, true⟩ pRecent).state.embedCalls = [] ∧
    (ingestFromConfig envT cfgT
        ⟨false, true, true, true⟩ pRecent).state.upsertCalls = [] ∧
    (ingestFromConfig envT cfgT
        ⟨false, true, true, true⟩ pRecent).state.progress = pRecent ∧
    (ingestFromConfig envT cfgT
        ⟨false, true, true, true⟩ pOld).state.embedCalls = ["body p1"] := by
  exact ⟨rfl, rfl, rfl, rfl, rfl⟩

/-- C4 amended: whenever the entry point runs in daily mode with a stored
last-run timestamp less than 24 hours in the past (and a nonempty space
configuration), the run is refused as a no-op — zero embedding calls, zero
upsert calls, zero saves, and the progress record unchanged — for every value
of the force flag. -/
theorem C4_daily_cooldown_refuses (env : Env)
    (configSpaces : List ConfigSpace) (flags : Flags) (p : ProgressData)
    (t : Nat) (hc : configSpaces ≠ []) (hd : flags.daily = true)
    (ht : p.lastRun = some t)
    (hlt : (env.now : Int) - (t : Int) < 86400) :
    ingestFromConfig env configSpaces flags p =
      ⟨RunOutcome.refusedDaily, initState p⟩ ∧
    (initState p).embedCalls = [] ∧
    (initState p).upsertCalls = [] ∧
    (initState p).saveCalls = [] ∧
    (initState p).progress = p := by
  refine ⟨?_, rfl, rfl, rfl, rfl⟩
  have hc2 : configSpaces.isEmpty = false := by
    cases configSpaces with
    | nil => exact absurd rfl hc
    | cons a l => rfl
  unfold ingestFromConfig
  rw [hc2, ht]
  simp [hd, hlt]

/-- Witness for C4 at the concrete cooldown fixture. -/
theorem C4_witness :
    (cfgT ≠ [] ∧ (⟨false, true, true, true⟩ : Flags).daily = true ∧
      pRecent.lastRun = some 999000 ∧
      (envT.now : Int) - (999000 : Int) < 86400) ∧
    ingestFromConfig envT cfgT ⟨false, true, true, true⟩ pRecent =
      ⟨RunOutcome.refusedDaily, initState pRecent⟩ :=
  ⟨⟨by decide, rfl, rfl, by decide⟩,
   (C4_daily_cooldown_refuses envT cfgT ⟨false, true, true, true⟩ pRecent
      999000 (by decide) rfl rfl (by decide)).1⟩

/-! ## Claim C3 — change detection is gated on the incremental flag only -/

/-- Ledger whose single entry already records the digest of the current page
text ("body p1" hashed by the fixture digest). -/
def pLedgerMatch : ProgressData :=
  { defaultProgress with
    processedPages := [("p1_page", ⟨some "#body p1", 0, none⟩)] }

/-- Ledger whose single entry records a stale digest. -/
def pLedgerStale : ProgressData :=
  { defaultProgress with
    processedPages := [("p1_page", ⟨some "#old", 0, none⟩)] }

/-- C3 evaluation at the failing input: a daily-only run (`incremental=False`,
`daily=True`, the flag combination produced by the `--daily` command line)
does not skip a unit whose text is unchanged — it re-embeds and re-upserts
it — because the skip check at line 440 tests the `incremental` flag only.
The incremental-mode half of the claim does hold: the same unchanged unit is
skipped with no embedding call, and a changed unit is re-embedded with its
ledger digest updated to the hash of the new text. -/
theorem C3_daily_mode_does_not_skip :
    (ingestFromConfig envT cfgT
        ⟨false, true, false, false⟩ pLedgerMatch).state.unitsSkipped = [] ∧
    (ingestFromConfig envT cfgT
        ⟨false, true, false, false⟩ pLedgerMatch).state.embedCalls =
      ["body p1"] ∧
    (ingestFromConfig envT cfgT
        ⟨false, true, false, false⟩ pLedgerMatch).state.upsertCalls.length =
      1 ∧
    (ingestFromConfig envT cfgT
        ⟨true, false, false, false⟩ pLedgerMatch).state.unitsSkipped =
      ["p1_page"] ∧
    (ingestFromConfig envT cfgT
        ⟨true, false, false, false⟩ pLedgerMatch).state.embedCalls = [] ∧
    (alistLookup (ingestFromConfig envT cfgT ⟨true, false, false, false⟩
        pLedgerStale).state.progress.processedPages "p1_page").map
      PageEntry.contentHash = some (some "#body p1") ∧
    (ingestFromConfig envT cfgT
        ⟨true, false, false, false⟩ pLedgerStale).state.embedCalls =
      ["body p1"] := by
  exact ⟨rfl, rfl, rfl, rfl, rfl, rfl, rfl⟩

/-! ## Claim C1 — resuming after two saved page batches -/

def pagesTwelve : List Page :=
  [⟨"q0", "t0"⟩, ⟨"q1", "t1"⟩, ⟨"q2", "t2"⟩, ⟨"q3", "t3"⟩, ⟨"q4", "t4"⟩,
   ⟨"q5", "t5"⟩, ⟨"q6", "t6"⟩, ⟨"q7", "t7"⟩, ⟨"q8", "t8"⟩, ⟨"q9", "t9"⟩,
   ⟨"q10", "t10"⟩, ⟨"q11", "t11"⟩]

def envTwelve : Env :=
  { envT with getAllPages := fun k => if k = "S" then pagesTwelve else [] }

def flagsFullResume : Flags := ⟨false, false, true, true⟩

def runFirst : RunResult :=
  ingestFromConfig envTwelve cfgT flagsFullResume defaultProgress

/-- Progress snapshot persisted after the second page batch of the first run
(the save calls are indexed from 0, one per non-empty page batch). -/
def pAfterTwoBatches : ProgressData :=
  (runFirst.state.saveCalls.get? 1).getD defaultProgress

def runResumed : RunResult :=
  ingestFromConfig envTwelve cfgT flagsFullResume pAfterTwoBatches

/-- C1 evaluation at the failing input: over one space with 12 pages and page
batch size 5, the snapshot saved after the first two page batches carries the
cursor (space 0, page 9, batch 2) and a ledger of 10 units; restarting with
`resume = true` from that snapshot, `get_resume_point` treats the saved space
index 0 as falsy ("no progress") and returns (0, 0, 0), so the page loop
starts again at page index 0 and visits all 12 pages — not only pages 10 and
11 as the claim requires (and even a truthy cursor would restart at the saved
index 9, not 10). -/
theorem C1_resume_restarts_from_zero :
    runFirst.state.saveCalls.length = 4 ∧
    (pAfterTwoBatches.currentProgress.getD emptyCursor).currentSpaceIndex =
      some 0 ∧
    (pAfterTwoBatches.currentProgress.getD emptyCursor).currentPageIndex =
      some 9 ∧
    (pAfterTwoBatches.currentProgress.getD emptyCursor).currentBatchIndex =
      some 2 ∧
    pAfterTwoBatches.processedPages.length = 10 ∧
    getResumePoint pAfterTwoBatches (buildAllSpaces envTwelve cfgT) =
      (0, 0, 0) ∧
    runResumed.state.pagesVisited.map Prod.snd =
      [0, 1, 2, 3, 4, 5, 6, 7, 8, 9, 10, 11] ∧
    runResumed.state.pagesVisited.map Prod.snd ≠ [10, 11] := by
  exact ⟨rfl, rfl, rfl, rfl, rfl, rfl, rfl, by decide⟩

/-! ## Claim C10 — the saved batch index does not influence resumption

`setBatchIndex` produces the second of two progress records that differ only
in the cursor field `current_batch_index`; the development below shows that a
run observes the same page visits, embedding calls, upserts and summaries on
both records. -/

/-- Overwrite only the saved batch index of the cursor (when present). -/
def setBatchIndex (p : ProgressData) (b : Option Nat) : ProgressData :=
  { p with
    currentProgress :=
      p.currentProgress.map (fun c => { c with currentBatchIndex := b }) }

/-- Lift of `setBatchIndex` to the run state. -/
def setStateBatch (b : Option Nat) (s : RunState) : RunState :=
  { s with progress := setBatchIndex s.progress b }

theorem isContentUpdated_setBatchIndex (uid dig : String) (p : ProgressData)
    (b : Option Nat) :
    isContentUpdated uid dig (setBatchIndex p b) = isContentUpdated uid dig p :=
  rfl

theorem updateProgress_setBatchIndex (now : Nat) (p : ProgressData)
    (k uid dig : String) (m : Metadata) (b : Option Nat) :
    updateProgress now (setBatchIndex p b) k uid dig m =
      setBatchIndex (updateProgress now p k uid dig m) b :=
  rfl

theorem updateCurrentProgress_setBatchIndex (p : ProgressData)
    (b : Option Nat) (a1 a2 a3 a4 a5 a6 : Nat) :
    updateCurrentProgress (setBatchIndex p b) a1 a2 a3 a4 a5 a6 =
      updateCurrentProgress p a1 a2 a3 a4 a5 a6 := by
  unfold updateCurrentProgress setBatchIndex
  cases p.currentProgress <;> rfl

theorem getResumePoint_setBatchIndex (p : ProgressData) (b : Option Nat)
    (l : List SpaceInfo) :
    (getResumePoint (setBatchIndex p b) l).1 = (getResumePoint p l).1 ∧
    (getResumePoint (setBatchIndex p b) l).2.1 = (getResumePoint p l).2.1 := by
  unfold getResumePoint setBatchIndex
  cases p.currentProgress with
  | none => exact ⟨rfl, rfl⟩
  | some c =>
      by_cases h : c.currentSpaceIndex.getD 0 = 0 <;> simp [h]

/-- Unit processing commutes with overwriting the saved batch index: the skip
decision reads only the ledger and the ledger update leaves the cursor
untouched. -/
theorem processDoc_setStateBatch (env : Env) (inc : Bool) (space : SpaceInfo)
    (pid : String) (b : Option Nat) (s : RunState) (staged : List StagedDoc)
    (doc : Doc) :
    processDoc env inc space pid (setStateBatch b s, staged) doc =
      (setStateBatch b (processDoc env inc space pid (s, staged) doc).1,
        (processDoc env inc space pid (s, staged) doc).2) := by
  have hg : isContentUpdated (pid ++ "_" ++ doc.ctype.getD "page")
        (env.hashFn doc.text) (setStateBatch b s).progress =
      isContentUpdated (pid ++ "_" ++ doc.ctype.getD "page")
        (env.hashFn doc.text) s.progress := rfl
  simp only [processDoc, hg]
  by_cases hc : (inc && !isContentUpdated (pid ++ "_" ++ doc.ctype.getD "page")
      (env.hashFn doc.text) s.progress) = true
  · rw [if_pos hc, if_pos hc]
    rfl
  · rw [if_neg hc, if_neg hc]
    by_cases hv : (env.embed doc.text).isEmpty = true
    · rw [if_pos hv]
      have hv2 : (env.embed doc.text).isEmpty = true := hv
      rw [if_pos hv2]
      rfl
    · rw [if_neg hv, if_neg hv]
      rfl

/-- Page processing not only commutes but collapses: its first action is the
cursor update, which overwrites the batch index with the current batch
number, erasing the difference entirely. -/
theorem processPage_setStateBatch (env : Env) (inc : Bool)
    (space : SpaceInfo) (a1 a2 a3 a4 a5 a6 j : Nat) (b : Option Nat)
    (s : RunState) (staged : List StagedDoc) (pidx : Nat) (page : Page) :
    processPage env inc space a1 a2 a3 a4 a5 a6 j (setStateBatch b s, staged)
        pidx page =
      processPage env inc space a1 a2 a3 a4 a5 a6 j (s, staged) pidx page := by
  simp only [processPage, setStateBatch]
  rw [updateCurrentProgress_setBatchIndex]

/-- A fold absorbs an initial-state transformation as soon as its first step
does. -/
theorem foldl_absorb_mem {α β : Type} (step : α → β → α) (T : α → α)
    (l : List β) (habs : ∀ (a : α) (x : β), x ∈ l → step (T a) x = step a x)
    (a : α) (hl : l ≠ []) : l.foldl step (T a) = l.foldl step a := by
  cases l with
  | nil => exact absurd rfl hl
  | cons x tl =>
      simp only [List.foldl]
      rw [habs a x (List.mem_cons_self x tl)]

/-- Every offset produced by a step-5 range lies below the bound. -/
theorem mem_rangeStep5 (start stop j : Nat) (hj : j ∈ rangeStep start stop 5) :
    j < stop := by
  unfold rangeStep at hj
  simp only [List.mem_map, List.mem_range] at hj
  obtain ⟨k, hk, rfl⟩ := hj
  have h1 : (stop - start + 5 - 1) / 5 * 5 ≤ stop - start + 5 - 1 :=
    Nat.div_mul_le_self _ 5
  have h2 : (k + 1) * 5 ≤ (stop - start + 5 - 1) / 5 * 5 :=
    Nat.mul_le_mul_right 5 hk
  omega

/-- A page batch taken at a valid offset is nonempty, so its first page
collapses the batch-index difference. -/
theorem processPageBatch_setStateBatch (env : Env) (inc : Bool)
    (space : SpaceInfo) (pages : List Page) (a1 a2 a4 a5 a6 : Nat)
    (b : Option Nat) (s : RunState) (j : Nat) (hj : j < pages.length) :
    processPageBatch env inc space pages a1 a2 a4 a5 a6 (setStateBatch b s)
        j =
      processPageBatch env inc space pages a1 a2 a4 a5 a6 s j := by
  have hdrop : pages.drop j ≠ [] := by
    intro h
    have := List.drop_eq_nil_iff.mp h
    omega
  have htake : (pages.drop j).take 5 ≠ [] := by
    intro h
    rcases List.take_eq_nil_iff.mp h with h5 | h5
    · exact absurd h5 (by omega)
    · exact hdrop h5
  have henum : ((pages.drop j).take 5).enum ≠ [] := by
    intro h
    exact htake (by simpa using congrArg (List.map Prod.snd) h)
  have habs : List.foldl
      (fun (st : RunState × List StagedDoc) (q : Nat × Page) =>
        processPage env inc space a1 a2 (j / 5 + 1) a4 a5 a6 j st q.1 q.2)
      (setStateBatch b s, ([] : List StagedDoc))
      ((pages.drop j).take 5).enum =
    List.foldl
      (fun (st : RunState × List StagedDoc) (q : Nat × Page) =>
        processPage env inc space a1 a2 (j / 5 + 1) a4 a5 a6 j st q.1 q.2)
      (s, ([] : List StagedDoc)) ((pages.drop j).take 5).enum :=
    foldl_absorb_mem _
      (fun (st : RunState × List StagedDoc) => (setStateBatch b st.1, st.2)) _
      (fun a q _ => processPage_setStateBatch env inc space a1 a2 (j / 5 + 1)
        a4 a5 a6 j b a.1 a.2 q.1 q.2)
      (s, []) henum
  simp only [processPageBatch]
  rw [habs]

/-- Space processing semi-commutes with the batch-index overwrite: either the
difference survives untouched (no page batch ran) or it is erased by the
first processed page. -/
theorem processSpace_semicommute (env : Env) (inc : Bool)
    (ssi tsc tpc tb sbs : Nat) (b : Option Nat) (idx : Nat)
    (space : SpaceInfo) (s : RunState) :
    processSpace env inc ssi tsc tpc tb sbs (setStateBatch b s) idx space =
        setStateBatch b (processSpace env inc ssi tsc tpc tb sbs s idx
          space) ∨
    processSpace env inc ssi tsc tpc tb sbs (setStateBatch b s) idx space =
        processSpace env inc ssi tsc tpc tb sbs s idx space := by
  unfold processSpace
  by_cases hp :
      (getAllPagesRecursive env.getAllPages env.getChildPages
        space.key).isEmpty
  · left
    simp [hp]
  · simp only [hp, Bool.false_eq_true, if_false]
    set pages :=
      getAllPagesRecursive env.getAllPages env.getChildPages space.key with
      hpages
    set startJ :=
      if idx = 0 ∧ sbs = ssi then s.startPageIndex else 0 with hstartJ
    have hsame :
        (if idx = 0 ∧ sbs = ssi then (setStateBatch b s).startPageIndex
          else 0) = startJ := by
      rw [hstartJ]
      rfl
    rw [hsame]
    rcases Decidable.em (rangeStep startJ pages.length 5 = []) with hr | hr
    · left
      rw [hr]
      rfl
    · right
      have hfold :
          (rangeStep startJ pages.length 5).foldl
            (processPageBatch env inc space pages sbs (sbs + idx) tsc tpc tb)
            (setStateBatch b
              { s with
                processedSpaces := s.processedSpaces ++
                  [⟨space.name, space.key, space.depth, pages.length⟩] }) =
          (rangeStep startJ pages.length 5).foldl
            (processPageBatch env inc space pages sbs (sbs + idx) tsc tpc tb)
            { s with
              processedSpaces := s.processedSpaces ++
                [⟨space.name, space.key, space.depth, pages.length⟩] } := by
        refine foldl_absorb_mem _ (setStateBatch b) _ ?_ _ hr
        intro a j hjmem
        exact processPageBatch_setStateBatch env inc space pages sbs
          (sbs + idx) tsc tpc tb b a j (mem_rangeStep5 _ _ _ hjmem)
      have hinit :
          (setStateBatch b
            { s with
              processedSpaces := s.processedSpaces ++
                [⟨space.name, space.key, space.depth, pages.length⟩] }) =
          { setStateBatch b s with
            processedSpaces := (setStateBatch b s).processedSpaces ++
              [⟨space.name, space.key, space.depth, pages.length⟩] } := rfl
      rw [← hinit, hfold]

/-- Semi-commutation is preserved by folds. -/
theorem foldl_semicommute {α β : Type} (T : α → α) (step : α → β → α)
    (h : ∀ (s : α) (x : β),
      step (T s) x = T (step s x) ∨ step (T s) x = step s x) :
    ∀ (l : List β) (s : α),
      l.foldl step (T s) = T (l.foldl step s) ∨
      l.foldl step (T s) = l.foldl step s := by
  intro l
  induction l with
  | nil => intro s; left; rfl
  | cons x tl ih =>
      intro s
      rcases h s x with h1 | h1
      · simp only [List.foldl]
        rw [h1]
        exact ih (step s x)
      · right
        simp only [List.foldl]
        rw [h1]

/-- The outputs a run makes observable: outcome, visited pages, embedding
calls, upsert batches, staged and skipped unit ids, space summaries and the
three counters — everything except the persisted snapshots and the cursor
contents. -/
def observables (r : RunResult) :
    RunOutcome × List (Nat × Nat) × List String × List (List StagedDoc) ×
      List String × List String × List SpaceSummary × Nat × Nat × Nat :=
  (r.outcome, r.state.pagesVisited, r.state.embedCalls, r.state.upsertCalls,
    r.state.unitsEmbedded, r.state.unitsSkipped, r.state.processedSpaces,
    r.state.totalProcessed, r.state.totalUpdated, r.state.totalSkipped)

theorem runSpaceLoop_semicommute (env : Env) (inc : Bool)
    (allSpaces : List SpaceInfo) (ssi tpc tb : Nat) (b : Option Nat)
    (s : RunState) :
    runSpaceLoop env inc allSpaces ssi tpc tb (setStateBatch b s) =
        setStateBatch b (runSpaceLoop env inc allSpaces ssi tpc tb s) ∨
    runSpaceLoop env inc allSpaces ssi tpc tb (setStateBatch b s) =
        runSpaceLoop env inc allSpaces ssi tpc tb s := by
  unfold runSpaceLoop
  exact foldl_semicommute (setStateBatch b) _
    (fun s i =>
      foldl_semicommute (setStateBatch b) _
        (fun s q =>
          processSpace_semicommute env inc ssi allSpaces.length tpc tb i b
            q.1 q.2 s) _ s)
    _ s

theorem mkInitState_setBatchIndex (p : ProgressData) (b : Option Nat)
    (spi : Nat) :
    mkInitState (setBatchIndex p b) spi = setStateBatch b (mkInitState p spi) :=
  rfl

theorem runMain_setBatchIndex (env : Env) (cfg : List ConfigSpace)
    (flags : Flags) (p : ProgressData) (b : Option Nat) :
    observables (runMain env cfg flags (setBatchIndex p b)) =
      observables (runMain env cfg flags p) := by
  have hrp1 :
      (if flags.resume then getResumePoint (setBatchIndex p b)
          (buildAllSpaces env cfg) else (0, 0, 0)).1 =
      (if flags.resume then getResumePoint p (buildAllSpaces env cfg)
          else (0, 0, 0)).1 := by
    cases flags.resume with
    | false => rfl
    | true =>
        simpa using (getResumePoint_setBatchIndex p b
          (buildAllSpaces env cfg)).1
  have hrp2 :
      (if flags.resume then getResumePoint (setBatchIndex p b)
          (buildAllSpaces env cfg) else (0, 0, 0)).2.1 =
      (if flags.resume then getResumePoint p (buildAllSpaces env cfg)
          else (0, 0, 0)).2.1 := by
    cases flags.resume with
    | false => rfl
    | true =>
        simpa using (getResumePoint_setBatchIndex p b
          (buildAllSpaces env cfg)).2
  simp only [runMain]
  rw [hrp1, hrp2, mkInitState_setBatchIndex]
  rcases runSpaceLoop_semicommute env flags.incremental
      (buildAllSpaces env cfg)
      (if flags.resume then getResumePoint p (buildAllSpaces env cfg)
        else (0, 0, 0)).1
      ((buildAllSpaces env cfg).map (fun sp =>
        (getAllPagesRecursive env.getAllPages env.getChildPages
          sp.key).length)).sum
      (((buildAllSpaces env cfg).length + 2 - 1) / 2) b
      (mkInitState p
        (if flags.resume then getResumePoint p (buildAllSpaces env cfg)
          else (0, 0, 0)).2.1) with h1 | h1 <;> rw [h1] <;> rfl

/-- C10: for two progress records that differ only in the saved
`current_batch_index`, an ingestion run with `resume = true` over the same
corpus produces identical observable behaviour — the same outcome, the same
pages visited in the same order, the same embedding calls, upsert batches,
unit ids and counters; the resume planner returns the saved batch index
verbatim, but no loop start position depends on it. -/
theorem C10_batch_index_no_influence (env : Env) (cfg : List ConfigSpace)
    (flags : Flags) (p : ProgressData) (b : Option Nat)
    (hres : flags.resume = true) :
    observables (ingestFromConfig env cfg flags (setBatchIndex p b)) =
      observables (ingestFromConfig env cfg flags p) := by
  clear hres
  unfold ingestFromConfig
  by_cases hc : cfg.isEmpty
  · simp [hc, observables, initState]
  · simp only [hc, Bool.false_eq_true, if_false]
    by_cases hm : (flags.incremental || flags.daily) = true
    · simp only [hm, if_true]
      cases hplr : p.lastRun with
      | none =>
          rw [show (setBatchIndex p b).lastRun = none from hplr]
          exact runMain_setBatchIndex env cfg flags p b
      | some t =>
          rw [show (setBatchIndex p b).lastRun = some t from hplr]
          by_cases hcool :
              flags.daily = true ∧ (env.now : Int) - (t : Int) < 86400
          · simp [hcool, observables, initState]
          · simp only [if_neg hcool]
            exact runMain_setBatchIndex env cfg flags p b
    · simp only [hm, Bool.false_eq_true, if_false]
      by_cases hf : flags.force
      · simp only [hf, Bool.not_true, Bool.false_eq_true, if_false]
        exact runMain_setBatchIndex env cfg flags p b
      · simp [hf, observables, initState]

/-- Witness for C10 at a concrete pair of records differing only in the saved
batch index. -/
theorem C10_witness :
    flagsFullResume.resume = true ∧
    observables (ingestFromConfig envT cfgT flagsFullResume
        (setBatchIndex defaultProgress (some 7))) =
      observables (ingestFromConfig envT cfgT flagsFullResume
        defaultProgress) :=
  ⟨rfl, C10_batch_index_no_influence envT cfgT flagsFullResume
    defaultProgress (some 7) rfl⟩

end ConfluenceBot
